import Mathlib

/-! Verification of the match engine of the lost-and-found service
(`src/app.py`): similarity scoring (`compute_similarity`), the threshold
match decision, the notification dispatcher (`notify_user`) and the catalog
scan of the `found` route, together with the `lost` route's submission
handling.

Python floats are modelled as real numbers; an embedding is a list of
reals.  External collaborators are modelled by their interface contracts:
the SQLAlchemy store persists records and does not fail, the mail and SMS
transports either succeed or raise, represented by one boolean outcome per
channel.  Side effects are recorded as an explicit event trace, and code
that can raise an uncaught exception is given an `Except` result type. -/

open Classical

noncomputable section

/-- Dot product of two real vectors over aligned entries (extra entries of
the longer vector do not contribute). -/
def dotList (a b : List ℝ) : ℝ := (List.zipWith (fun x y => x * y) a b).sum

/-- Euclidean norm of a vector. -/
def normList (a : List ℝ) : ℝ := Real.sqrt (dotList a a)

/-- Python round half to even of a real number (banker's rounding, the
semantics of the built-in `round`). -/
def pyRoundHalfEven (x : ℝ) : ℤ :=
  let n := ⌊x⌋
  if x - n < 1 / 2 then n
  else if 1 / 2 < x - n then n + 1
  else if Even n then n else n + 1

/-- Python `round(x, 3)`. -/
def round3 (x : ℝ) : ℝ := (pyRoundHalfEven (x * 1000) : ℝ) / 1000

/-- A registered user (the SQLAlchemy `User` model of `src/app.py`).
`email` is a non-nullable column, `phone` a nullable one. -/
structure User where
  id : ℕ
  username : String
  email : String
  password : String
  phone : Option String

/-- A reported item (the SQLAlchemy `Item` model).  `features` holds the
JSON-serialised embedding: `some l` models a stored text that decodes to the
vector `l`, `none` a corrupted text on which `json.loads` /
`np.array(..., dtype=float)` raises.  `date` abstracts the creation
timestamp. -/
structure Item where
  id : ℕ
  user_id : ℕ
  type : String
  name : String
  description : String
  location : String
  contact : String
  image_filename : String
  features : Option (List ℝ)
  date : ℕ := 0

/-- `Item.feature_array` (`src/app.py` lines 71-72):
`np.array(json.loads(self.features), dtype=float)`; the decode error on a
corrupted stored text is an uncaught exception. -/
def feature_array (li : Item) : Except Unit (List ℝ) :=
  match li.features with
  | some l => Except.ok l
  | none => Except.error ()

/-- `compute_similarity` (`src/app.py` lines 108-112): sklearn
`cosine_similarity` wrapped in try/except returning 0.0 on any exception.
sklearn raises on a dimension mismatch, and its normalisation step maps a
zero-norm vector to the zero vector, so either zero norm yields 0.0. -/
def compute_similarity (a b : List ℝ) : ℝ :=
  if a.length = b.length then
    if normList a = 0 ∨ normList b = 0 then 0
    else dotList a b / (normList a * normList b)
  else 0

/-- The human-readable alert text composed by `notify_user` (the f-string of
`src/app.py` lines 121-130), modelled field by field; the score field
carries the value after Python `round(·, 3)`. -/
structure MessageBody where
  username : String
  lost_name : String
  found_name : String
  location : String
  contact : String
  similarity : ℝ

/-- A match-alert record (the SQLAlchemy `Notification` model).  The
surrogate id and `sent_time` are assigned by the store on insert and are
omitted; `status` has column default `'sent'`. -/
structure Notification where
  receiver_id : ℕ
  lost_item_id : ℕ
  found_item_id : ℕ
  message : MessageBody
  status : String

/-- Observable side effects of the handlers, in program order. -/
inductive Event where
  | imageSaved (filename : String)
  | featuresExtracted
  | itemPersisted (item : Item)
  | notifyCall (lost_item_id found_item_id : ℕ)
  | notifPersisted (notif : Notification)
  | emailAttempt (recipient : String) (ok : Bool)
  | smsAttempt (ok : Bool)

/-- Environment-derived configuration of the dispatcher: the MAIL_USERNAME
setting and the USE_TWILIO flag. -/
structure Config where
  mail_username : Option String
  use_twilio : Bool

/-- Truthiness of an optional string in Python (None and the empty string
are falsy). -/
def strOptTruthy : Option String → Bool
  | some s => s != ""
  | none => false

/-- One call of a delivery transport: it succeeds or raises, according to
the boolean outcome supplied for the channel. -/
def transportSend (ok : Bool) : Except Unit Unit :=
  if ok then Except.ok () else Except.error ()

/-- `notify_user` (`src/app.py` lines 115-163).  The user lookup and the
notification insert follow the store contracts; each channel send is guarded
by its configuration test and wrapped in try/except whose handler only
logs.  An exception escaping the function would surface as `Except.error`. -/
def notify_user (users : List User) (cfg : Config) (mailOk smsOk : Bool)
    (lost_item found_item : Item) (similarity : ℝ) : Except Unit (List Event) :=
  match users.find? (fun u => u.id == lost_item.user_id) with
  | none => Except.ok []
  | some user =>
    let body : MessageBody :=
      { username := user.username
        lost_name := lost_item.name
        found_name := found_item.name
        location := found_item.location
        contact := found_item.contact
        similarity := round3 similarity }
    let notif : Notification :=
      { receiver_id := user.id
        lost_item_id := lost_item.id
        found_item_id := found_item.id
        message := body
        status := "sent" }
    let emailEvents :=
      if user.email != "" && strOptTruthy cfg.mail_username then
        match transportSend mailOk with
        | Except.ok _ => [Event.emailAttempt user.email true]
        | Except.error _ => [Event.emailAttempt user.email false]
      else []
    let smsEvents :=
      if cfg.use_twilio && strOptTruthy user.phone then
        match transportSend smsOk with
        | Except.ok _ => [Event.smsAttempt true]
        | Except.error _ => [Event.smsAttempt false]
      else []
    Except.ok (Event.notifPersisted notif :: (emailEvents ++ smsEvents))

/-- One entry of the `matches` list built by the found route: the lost item
together with `round(sim, 3)`. -/
structure MatchRecord where
  item : Item
  similarity : ℝ

/-- The catalog scan of the found route (`src/app.py` lines 262-268):
iterate the stored lost items in order, score each against the query
embedding, and for each accepted score append a match record and call
`notify_user`.  The first component collects the emitted events; an
exception escaping the loop body surfaces as `Except.error` in the second. -/
def matchScan (users : List User) (cfg : Config) (mailOk smsOk : Bool)
    (feats : List ℝ) (found_item : Item) :
    List Item → List Event × Except Unit (List MatchRecord)
  | [] => ([], Except.ok [])
  | li :: rest =>
    match feature_array li with
    | Except.error e => ([], Except.error e)
    | Except.ok lf =>
      if 0.75 ≤ compute_similarity feats lf then
        match notify_user users cfg mailOk smsOk li found_item
            (compute_similarity feats lf) with
        | Except.error e => ([Event.notifyCall li.id found_item.id], Except.error e)
        | Except.ok nevs =>
          let scanned := matchScan users cfg mailOk smsOk feats found_item rest
          (Event.notifyCall li.id found_item.id :: (nevs ++ scanned.1),
            scanned.2.map fun ms =>
              { item := li, similarity := round3 (compute_similarity feats lf) } :: ms)
      else matchScan users cfg mailOk smsOk feats found_item rest

/-- The uploaded image, identified by the unique stored filename together
with the embedding `extract_features` produces for it. -/
structure UploadedFile where
  filename : String
  features : List ℝ

/-- Form data of a lost/found submission by the logged-in user; `image` is
absent when no file was attached. -/
structure SubmitRequest where
  user_id : ℕ
  name : String
  description : String
  location : String
  contact : String
  image : Option UploadedFile

/-- HTTP outcome of the two POST handlers. -/
inductive Response where
  | redirectLost
  | redirectFound
  | redirectDashboard
  | resultsPage (results : List MatchRecord) (query_image : String)

/-- Autoincrement primary key assigned by the store on insert. -/
def nextItemId (store : List Item) : ℕ := (store.map Item.id).foldr max 0 + 1

/-- The found `Item` as constructed in the found route before insertion
(`src/app.py` lines 252-258). -/
def mkFoundItem (store : List Item) (req : SubmitRequest) (f : UploadedFile) : Item :=
  { id := nextItemId store
    user_id := req.user_id
    type := "found"
    name := req.name
    description := req.description
    location := req.location
    contact := req.contact
    image_filename := f.filename
    features := some f.features }

/-- The lost `Item` as constructed in the lost route before insertion
(`src/app.py` lines 231-235). -/
def mkLostItem (store : List Item) (req : SubmitRequest) (f : UploadedFile) : Item :=
  { id := nextItemId store
    user_id := req.user_id
    type := "lost"
    name := req.name
    description := req.description
    location := req.location
    contact := req.contact
    image_filename := f.filename
    features := some f.features }

/-- POST branch of the `found` route (`src/app.py` lines 244-270): reject
when no image is attached; otherwise save the image, extract features,
persist the found item, query every stored item of type `lost`, run the
match scan and render the results page.  The components are the item table
after the request, the event trace, and the response (or the uncaught
exception that aborted the scan). -/
def foundPost (users : List User) (cfg : Config) (mailOk smsOk : Bool)
    (store : List Item) (req : SubmitRequest) :
    List Item × List Event × Except Unit Response :=
  match req.image with
  | none => (store, [], Except.ok Response.redirectFound)
  | some f =>
    let found_item := mkFoundItem store req f
    let store1 := store ++ [found_item]
    let lost_items := store1.filter fun li => li.type == "lost"
    let scanned := matchScan users cfg mailOk smsOk f.features found_item lost_items
    let evs0 := [Event.imageSaved f.filename, Event.featuresExtracted,
      Event.itemPersisted found_item]
    match scanned.2 with
    | Except.error e => (store1, evs0 ++ scanned.1, Except.error e)
    | Except.ok ms =>
      (store1, evs0 ++ scanned.1, Except.ok (Response.resultsPage ms f.filename))

/-- POST branch of the `lost` route (`src/app.py` lines 223-239): reject
when no image is attached; otherwise save the image, extract features,
persist the lost item and redirect to the dashboard. -/
def lostPost (store : List Item) (req : SubmitRequest) :
    List Item × List Event × Response :=
  match req.image with
  | none => (store, [], Response.redirectLost)
  | some f =>
    (store ++ [mkLostItem store req f],
      [Event.imageSaved f.filename, Event.featuresExtracted,
        Event.itemPersisted (mkLostItem store req f)],
      Response.redirectDashboard)

/-- Embedding stored on an item, in decoded form (empty for a corrupted
text; only used on items whose text decodes). -/
def featuresOf (li : Item) : List ℝ := li.features.getD []

/-- Similarity of the query embedding against a stored item, as the scan
computes it. -/
def simTo (feats : List ℝ) (li : Item) : ℝ := compute_similarity feats (featuresOf li)

/-- Sublist of a catalog whose score the scan's threshold test accepts, in
catalog order. -/
def acceptedLost (feats : List ℝ) : List Item → List Item
  | [] => []
  | li :: rest =>
    if 0.75 ≤ simTo feats li then li :: acceptedLost feats rest
    else acceptedLost feats rest

/-- The Similarity Scorer contract as the spec states it (section 4.2):
cosine similarity, with the zero-norm degenerate case defined as 0. -/
def score_spec (a b : List ℝ) : ℝ :=
  if normList a = 0 ∨ normList b = 0 then 0
  else dotList a b / (normList a * normList b)

/-- The Match Decision Policy as the spec states it (section 4.3):
`score >= THRESHOLD` with `THRESHOLD = 0.75`. -/
def is_match (score : ℝ) : Prop := 0.75 ≤ score

/-- The Match Orchestrator result as the spec states it (section 4.4): the
items of the catalog whose score the Match Decision Policy accepts, in
catalog iteration order, with no sorting. -/
def find_matches_spec (feats : List ℝ) : List Item → List Item
  | [] => []
  | li :: rest =>
    if is_match (score_spec feats (featuresOf li)) then
      li :: find_matches_spec feats rest
    else find_matches_spec feats rest

/-- Tests whether an event is an invocation of the Notification Dispatcher. -/
def isNotifyCall : Event → Bool
  | Event.notifyCall _ _ => true
  | _ => false

/-- Number of Notification Dispatcher invocations recorded in a trace. -/
def countNotifyCalls (evs : List Event) : ℕ := (evs.filter isNotifyCall).length

/-- Tests whether an event is a delivery attempt on a channel. -/
def isDeliveryAttempt : Event → Bool
  | Event.emailAttempt _ _ => true
  | Event.smsAttempt _ => true
  | _ => false

/-! Basic facts about the dot product and the norm. -/

lemma dotList_nil (b : List ℝ) : dotList [] b = 0 := by
  simp [dotList]

lemma dotList_nil_right (a : List ℝ) : dotList a [] = 0 := by
  simp [dotList]

lemma dotList_cons (x y : ℝ) (a b : List ℝ) :
    dotList (x :: a) (y :: b) = x * y + dotList a b := by
  simp [dotList]

lemma dotList_self_nonneg (a : List ℝ) : 0 ≤ dotList a a := by
  induction a with
  | nil => simp [dotList_nil]
  | cons x t ih =>
    rw [dotList_cons]
    have := mul_self_nonneg x
    linarith

lemma normList_nonneg (a : List ℝ) : 0 ≤ normList a := Real.sqrt_nonneg _

/-- Cauchy-Schwarz for list dot products, in squared form. -/
lemma dotList_sq_le (a : List ℝ) : ∀ b : List ℝ,
    dotList a b ^ 2 ≤ dotList a a * dotList b b := by
  induction a with
  | nil =>
    intro b
    simp [dotList_nil]
  | cons x t ih =>
    intro b
    cases b with
    | nil =>
      simp [dotList_nil_right]
    | cons y s =>
      have h1 := ih s
      have hA := dotList_self_nonneg t
      have hB := dotList_self_nonneg s
      rw [dotList_cons, dotList_cons, dotList_cons]
      by_cases hB0 : dotList s s = 0
      · have hd0 : dotList t s = 0 := by
          have h2 : dotList t s ^ 2 ≤ 0 := by
            calc dotList t s ^ 2 ≤ dotList t t * dotList s s := h1
            _ = 0 := by rw [hB0]; ring
          have h4 : dotList t s ^ 2 = 0 := le_antisymm h2 (sq_nonneg _)
          exact (pow_eq_zero_iff (by norm_num : (2 : ℕ) ≠ 0)).mp h4
        rw [hB0, hd0]
        nlinarith [sq_nonneg (x * y), mul_nonneg hA (mul_self_nonneg y)]
      · have hBpos : 0 < dotList s s := lt_of_le_of_ne hB (fun h => hB0 h.symm)
        nlinarith [sq_nonneg (x * dotList s s - y * dotList t s),
          mul_nonneg (sq_nonneg y) (sub_nonneg.mpr h1),
          mul_nonneg hB (sub_nonneg.mpr h1)]

lemma abs_dotList_le (a b : List ℝ) : |dotList a b| ≤ normList a * normList b := by
  have h1 := dotList_sq_le a b
  have hA := dotList_self_nonneg a
  have hB := dotList_self_nonneg b
  have h2 : |dotList a b| = Real.sqrt (dotList a b ^ 2) := (Real.sqrt_sq_eq_abs _).symm
  rw [h2, normList, normList, ← Real.sqrt_mul hA]
  exact Real.sqrt_le_sqrt h1

lemma compute_similarity_zero_norm {a b : List ℝ}
    (h : normList a = 0 ∨ normList b = 0) : compute_similarity a b = 0 := by
  by_cases hlen : a.length = b.length
  · unfold compute_similarity
    rw [if_pos hlen, if_pos h]
  · unfold compute_similarity
    rw [if_neg hlen]

lemma dotList_replicate_zero (n : ℕ) :
    dotList (List.replicate n 0) (List.replicate n 0) = 0 := by
  induction n with
  | zero => simp [dotList_nil]
  | succ k ih => rw [List.replicate_succ, dotList_cons, ih]; ring

lemma normList_replicate_zero (n : ℕ) : normList (List.replicate n 0) = 0 := by
  rw [normList, dotList_replicate_zero, Real.sqrt_zero]

lemma compute_similarity_eval (a b : List ℝ) (h : a.length = b.length)
    (ha : normList a ≠ 0) (hb : normList b ≠ 0) :
    compute_similarity a b = dotList a b / (normList a * normList b) := by
  unfold compute_similarity
  rw [if_pos h, if_neg]
  push_neg
  exact ⟨ha, hb⟩

/-! Evaluation helpers for concrete vectors and Python rounding. -/

lemma round3_int (x : ℝ) (m : ℤ) (h : x * 1000 = m) : round3 x = (m : ℝ) / 1000 := by
  have hfloor : ⌊(m : ℝ)⌋ = m := Int.floor_intCast m
  unfold round3 pyRoundHalfEven
  rw [h, hfloor, if_pos]
  norm_num

lemma dotList_pair (x y z w : ℝ) : dotList [x, y] [z, w] = x * z + y * w := by
  simp [dotList]

lemma normList_pair (x y : ℝ) : normList [x, y] = Real.sqrt (x * x + y * y) := by
  simp [normList, dotList]

lemma sqrt_eval {c r : ℝ} (h0 : 0 ≤ r) (h : r * r = c) : Real.sqrt c = r := by
  rw [← h]
  exact Real.sqrt_mul_self h0

lemma normList_one_zero : normList [(1 : ℝ), 0] = 1 := by
  rw [normList_pair]
  norm_num

/-- Cosine of the unit query vector against a planted two-entry vector whose
norm is the given positive rational value. -/
lemma sim_unit_pair (p q n : ℝ) (hq : 0 ≤ q) (hn : 0 < n) (hnn : p * p + q = n * n) :
    compute_similarity [1, 0] [p, Real.sqrt q] = p / n := by
  have hb : normList [p, Real.sqrt q] = n := by
    rw [normList_pair, Real.mul_self_sqrt hq, hnn]
    exact sqrt_eval hn.le rfl
  have ha := normList_one_zero
  have h2 : compute_similarity [1, 0] [p, Real.sqrt q] =
      dotList [1, 0] [p, Real.sqrt q] / (normList [1, 0] * normList [p, Real.sqrt q]) :=
    compute_similarity_eval [1, 0] [p, Real.sqrt q] rfl (by rw [ha]; norm_num)
      (by rw [hb]; exact hn.ne')
  rw [h2, ha, hb, dotList_pair]
  ring

/-! Behaviour of the notification dispatcher and the catalog scan. -/

lemma notify_user_ok (users : List User) (cfg : Config) (mailOk smsOk : Bool)
    (li fi : Item) (sim : ℝ) :
    ∃ evs, notify_user users cfg mailOk smsOk li fi sim = Except.ok evs ∧
      countNotifyCalls evs = 0 := by
  unfold notify_user
  cases hfind : users.find? (fun u => u.id == li.user_id) with
  | none => exact ⟨[], rfl, rfl⟩
  | some user =>
    refine ⟨_, rfl, ?_⟩
    cases mailOk <;> cases smsOk <;>
      simp [countNotifyCalls, isNotifyCall, transportSend, List.filter_append] <;>
      exact ⟨fun a _ _ ha => by subst ha; rfl, fun a _ _ ha => by subst ha; rfl⟩

lemma matchScan_res (users : List User) (cfg : Config) (mailOk smsOk : Bool)
    (feats : List ℝ) (fi : Item) :
    ∀ lost : List Item, (∀ li ∈ lost, li.features.isSome) →
      (matchScan users cfg mailOk smsOk feats fi lost).2 =
        Except.ok ((acceptedLost feats lost).map fun li =>
          { item := li, similarity := round3 (simTo feats li) }) := by
  intro lost
  induction lost with
  | nil => intro _; simp [matchScan, acceptedLost]
  | cons li rest ih =>
    intro hdec
    obtain ⟨l, hl⟩ := Option.isSome_iff_exists.mp (hdec li (List.mem_cons_self li rest))
    have hrest := ih fun x hx => hdec x (List.mem_cons_of_mem li hx)
    have hfa : feature_array li = Except.ok l := by simp [feature_array, hl]
    have hsim : compute_similarity feats l = simTo feats li := by
      simp [simTo, featuresOf, hl]
    by_cases hacc : (0.75 : ℝ) ≤ simTo feats li
    · obtain ⟨nevs, hne, _⟩ := notify_user_ok users cfg mailOk smsOk li fi
        (simTo feats li)
      simp [matchScan, hfa, hne, hrest, acceptedLost, hacc, hsim, Except.map]
    · simp [matchScan, hfa, hrest, acceptedLost, hacc, hsim]

lemma matchScan_calls (users : List User) (cfg : Config) (mailOk smsOk : Bool)
    (feats : List ℝ) (fi : Item) :
    ∀ lost : List Item, (∀ li ∈ lost, li.features.isSome) →
      countNotifyCalls (matchScan users cfg mailOk smsOk feats fi lost).1 =
        (acceptedLost feats lost).length := by
  intro lost
  induction lost with
  | nil => intro _; simp [matchScan, acceptedLost, countNotifyCalls]
  | cons li rest ih =>
    intro hdec
    obtain ⟨l, hl⟩ := Option.isSome_iff_exists.mp (hdec li (List.mem_cons_self li rest))
    have hrest := ih fun x hx => hdec x (List.mem_cons_of_mem li hx)
    simp only [countNotifyCalls] at hrest
    have hfa : feature_array li = Except.ok l := by simp [feature_array, hl]
    have hsim : compute_similarity feats l = simTo feats li := by
      simp [simTo, featuresOf, hl]
    by_cases hacc : (0.75 : ℝ) ≤ simTo feats li
    · obtain ⟨nevs, hne, hnc⟩ := notify_user_ok users cfg mailOk smsOk li fi
        (simTo feats li)
      have hfilter : nevs.filter isNotifyCall = [] := by
        simpa [countNotifyCalls] using hnc
      simp [matchScan, hfa, hne, hacc, hsim, countNotifyCalls, isNotifyCall,
        List.filter_append, hfilter, acceptedLost, hrest]
    · simp [matchScan, hfa, hacc, hsim, countNotifyCalls, acceptedLost, hrest]

lemma matchScan_outcome_indep (users : List User) (cfg : Config)
    (m1 s1 m2 s2 : Bool) (feats : List ℝ) (fi : Item) :
    ∀ lost : List Item,
      (matchScan users cfg m1 s1 feats fi lost).2 =
        (matchScan users cfg m2 s2 feats fi lost).2 := by
  intro lost
  induction lost with
  | nil => rfl
  | cons li rest ih =>
    cases hfa : feature_array li with
    | error e => simp [matchScan, hfa]
    | ok lf =>
      by_cases hacc : (0.75 : ℝ) ≤ compute_similarity feats lf
      · obtain ⟨n1, h1, _⟩ := notify_user_ok users cfg m1 s1 li fi
          (compute_similarity feats lf)
        obtain ⟨n2, h2, _⟩ := notify_user_ok users cfg m2 s2 li fi
          (compute_similarity feats lf)
        simp [matchScan, hfa, hacc, h1, h2, ih]
      · simp [matchScan, hfa, hacc, ih]

lemma mem_acceptedLost {feats : List ℝ} :
    ∀ {lost : List Item} {li : Item}, li ∈ acceptedLost feats lost →
      (0.75 : ℝ) ≤ simTo feats li ∧ li ∈ lost := by
  intro lost
  induction lost with
  | nil => intro li h; simp [acceptedLost] at h
  | cons x rest ih =>
    intro li h
    by_cases hacc : (0.75 : ℝ) ≤ simTo feats x
    · simp only [acceptedLost, if_pos hacc] at h
      rcases List.mem_cons.mp h with rfl | h2
      · exact ⟨hacc, List.mem_cons_self _ _⟩
      · obtain ⟨h3, h4⟩ := ih h2
        exact ⟨h3, List.mem_cons_of_mem _ h4⟩
    · simp only [acceptedLost, if_neg hacc] at h
      obtain ⟨h3, h4⟩ := ih h
      exact ⟨h3, List.mem_cons_of_mem _ h4⟩

lemma acceptedLost_eq_spec (feats : List ℝ) :
    ∀ catalog : List Item,
      (∀ li ∈ catalog, ∃ l, li.features = some l ∧ l.length = feats.length) →
      acceptedLost feats catalog = find_matches_spec feats catalog := by
  intro catalog
  induction catalog with
  | nil => intro _; rfl
  | cons li rest ih =>
    intro h
    obtain ⟨l, hl, hlen⟩ := h li (List.mem_cons_self li rest)
    have hs : simTo feats li = score_spec feats (featuresOf li) := by
      simp only [simTo, featuresOf, hl, Option.getD_some]
      unfold compute_similarity score_spec
      rw [if_pos hlen.symm]
    have htail := ih fun x hx => h x (List.mem_cons_of_mem li hx)
    simp only [acceptedLost, find_matches_spec, is_match, hs, htail]

lemma lost_filter_append_found (store : List Item) (req : SubmitRequest)
    (f : UploadedFile) :
    (store ++ [mkFoundItem store req f]).filter (fun li => li.type == "lost") =
      store.filter (fun li => li.type == "lost") := by
  rw [List.filter_append]
  have : List.filter (fun li => li.type == "lost") [mkFoundItem store req f] = [] := by
    simp [List.filter, mkFoundItem]
  rw [this, List.append_nil]

/-- Normal-path behaviour of the found route, assembled from the scan
characterisation: item persisted, lost catalog queried, results rendered. -/
lemma foundPost_ok (users : List User) (cfg : Config) (mailOk smsOk : Bool)
    (store : List Item) (req : SubmitRequest) (f : UploadedFile)
    (himg : req.image = some f)
    (hdec : ∀ li ∈ store, li.type = "lost" → li.features.isSome) :
    foundPost users cfg mailOk smsOk store req =
      (store ++ [mkFoundItem store req f],
        [Event.imageSaved f.filename, Event.featuresExtracted,
          Event.itemPersisted (mkFoundItem store req f)] ++
          (matchScan users cfg mailOk smsOk f.features (mkFoundItem store req f)
            (store.filter fun li => li.type == "lost")).1,
        Except.ok (Response.resultsPage
          ((acceptedLost f.features (store.filter fun li => li.type == "lost")).map
            fun li => { item := li, similarity := round3 (simTo f.features li) })
          f.filename)) := by
  have hdec2 : ∀ li ∈ store.filter (fun li => li.type == "lost"),
      li.features.isSome := by
    intro li hli
    rw [List.mem_filter] at hli
    exact hdec li hli.1 (by simpa using hli.2)
  have hres := matchScan_res users cfg mailOk smsOk f.features (mkFoundItem store req f)
    (store.filter fun li => li.type == "lost") hdec2
  simp only [foundPost, himg]
  rw [lost_filter_append_found store req f, hres]

/-! Concrete fixtures used by boundary and example runs. -/

/-- Configuration with the mail and the SMS channel unconfigured. -/
def cfg0 : Config := { mail_username := none, use_twilio := false }

/-- Generic stored lost item carrying a given id and stored embedding. -/
def testItem (n : ℕ) (fs : Option (List ℝ)) : Item :=
  { id := n, user_id := 0, type := "lost", name := "item", description := "",
    location := "", contact := "", image_filename := "", features := fs }

/-- Found item used as the fixed query of direct scans. -/
def foundItem0 : Item :=
  { id := 100, user_id := 0, type := "found", name := "query", description := "",
    location := "", contact := "", image_filename := "", features := some [1, 0] }

/-- Lost item whose cosine against the query [1, 0] is exactly 0.9. -/
def it90 : Item := testItem 1 (some [9, Real.sqrt 19])

/-- Lost item whose cosine against the query [1, 0] is exactly 0.5. -/
def it50 : Item := testItem 2 (some [1, Real.sqrt 3])

/-- Lost item whose cosine against the query [1, 0] is exactly 0.8. -/
def it80 : Item := testItem 3 (some [4, Real.sqrt 9])

/-- Lost item whose cosine against the query [1, 0] is exactly 0.75. -/
def it75 : Item := testItem 4 (some [3, Real.sqrt 7])

/-- Lost item whose cosine against the query [1, 0] is exactly 0.7499. -/
def it7499 : Item := testItem 5 (some [7499, Real.sqrt 43764999])

/-- Lost item whose stored embedding text does not decode. -/
def corruptItem : Item := testItem 6 none

/-- Lost item whose embedding has a different dimensionality than the query. -/
def mismatchItem : Item := testItem 7 (some [1, 2, 3])

lemma simTo_it90 : simTo [1, 0] it90 = 0.9 := by
  show compute_similarity [1, 0] [9, Real.sqrt 19] = 0.9
  rw [sim_unit_pair 9 19 10 (by norm_num) (by norm_num) (by norm_num)]
  norm_num

lemma simTo_it50 : simTo [1, 0] it50 = 0.5 := by
  show compute_similarity [1, 0] [1, Real.sqrt 3] = 0.5
  rw [sim_unit_pair 1 3 2 (by norm_num) (by norm_num) (by norm_num)]
  norm_num

lemma simTo_it80 : simTo [1, 0] it80 = 0.8 := by
  show compute_similarity [1, 0] [4, Real.sqrt 9] = 0.8
  rw [sim_unit_pair 4 9 5 (by norm_num) (by norm_num) (by norm_num)]
  norm_num

lemma simTo_it75 : simTo [1, 0] it75 = 0.75 := by
  show compute_similarity [1, 0] [3, Real.sqrt 7] = 0.75
  rw [sim_unit_pair 3 7 4 (by norm_num) (by norm_num) (by norm_num)]
  norm_num

lemma simTo_it7499 : simTo [1, 0] it7499 = 0.7499 := by
  show compute_similarity [1, 0] [7499, Real.sqrt 43764999] = 0.7499
  rw [sim_unit_pair 7499 43764999 10000 (by norm_num) (by norm_num) (by norm_num)]
  norm_num

lemma round3_09 : round3 (0.9 : ℝ) = 0.9 := by
  rw [round3_int (0.9 : ℝ) 900 (by push_cast; norm_num)]
  norm_num

lemma round3_08 : round3 (0.8 : ℝ) = 0.8 := by
  rw [round3_int (0.8 : ℝ) 800 (by push_cast; norm_num)]
  norm_num

lemma round3_075 : round3 (0.75 : ℝ) = 0.75 := by
  rw [round3_int (0.75 : ℝ) 750 (by push_cast; norm_num)]
  norm_num

lemma acceptedLost_example :
    acceptedLost [1, 0] [it90, it50, it80] = [it90, it80] := by
  simp only [acceptedLost, simTo_it90, simTo_it50, simTo_it80]
  rw [if_pos (by norm_num), if_neg (by norm_num), if_pos (by norm_num)]

/-- Form submission with no file attached. -/
def req0 : SubmitRequest :=
  { user_id := 1, name := "wallet", description := "black", location := "park",
    contact := "555", image := none }

/-- An uploaded image whose extracted embedding is the unit query vector. -/
def file0 : UploadedFile := { filename := "img.png", features := [1, 0] }

/-- Form submission carrying the image file0. -/
def reqImg : SubmitRequest := { req0 with image := some file0 }

/-- A user resolvable as the owner of the test lost items. -/
def u0 : User :=
  { id := 0, username := "alice", email := "", password := "pw", phone := none }

/-! Claims. -/

/-- C1: a found-item submission scans the whole stored lost catalog linearly
(no filtering by owner, date or location) and returns exactly the lost items
whose similarity score the match policy accepts, in catalog (insertion)
order, with no sorting by score: the returned item sequence equals the
spec's find_matches filter of the full lost catalog. -/
theorem found_scan_filters_whole_lost_catalog_in_order
    (users : List User) (cfg : Config) (mailOk smsOk : Bool)
    (store : List Item) (req : SubmitRequest) (f : UploadedFile)
    (himg : req.image = some f)
    (hdec : ∀ li ∈ store, li.type = "lost" →
      ∃ l, li.features = some l ∧ l.length = f.features.length) :
    ∃ ms, (foundPost users cfg mailOk smsOk store req).2.2 =
        Except.ok (Response.resultsPage ms f.filename) ∧
      ms.map MatchRecord.item =
        find_matches_spec f.features (store.filter fun li => li.type == "lost") := by
  have hdec' : ∀ li ∈ store, li.type = "lost" → li.features.isSome := by
    intro li h1 h2
    obtain ⟨l, hl, _⟩ := hdec li h1 h2
    simp [hl]
  rw [foundPost_ok users cfg mailOk smsOk store req f himg hdec']
  refine ⟨_, rfl, ?_⟩
  rw [List.map_map]
  have hid : (MatchRecord.item ∘ fun li =>
      ({ item := li, similarity := round3 (simTo f.features li) } : MatchRecord)) = id := rfl
  rw [hid, List.map_id]
  refine acceptedLost_eq_spec f.features _ ?_
  intro li hli
  rw [List.mem_filter] at hli
  exact hdec li hli.1 (by simpa using hli.2)

theorem found_scan_filters_whole_lost_catalog_in_order_witness :
    ∃ ms, (foundPost [] cfg0 false false [] reqImg).2.2 =
        Except.ok (Response.resultsPage ms file0.filename) ∧
      ms.map MatchRecord.item =
        find_matches_spec file0.features
          (List.filter (fun li => li.type == "lost") []) :=
  found_scan_filters_whole_lost_catalog_in_order [] cfg0 false false [] reqImg file0
    rfl (fun li h => absurd h (List.not_mem_nil li))

/-- C2: the match decision applied by the scan is score ≥ 0.75 with the
fixed threshold 0.75 and an inclusive boundary: a singleton-catalog item is
returned iff `is_match` holds of its score, an item scoring exactly 0.75 is
matched, and an item scoring 0.7499 is not. -/
theorem match_decision_threshold_075_inclusive :
    (∀ (users : List User) (cfg : Config) (mailOk smsOk : Bool)
        (feats : List ℝ) (fi li : Item) (l : List ℝ), li.features = some l →
      (((matchScan users cfg mailOk smsOk feats fi [li]).2 =
          Except.ok [MatchRecord.mk li (round3 (compute_similarity feats l))]) ↔
        is_match (compute_similarity feats l)) ∧
      (((matchScan users cfg mailOk smsOk feats fi [li]).2 = Except.ok []) ↔
        ¬ is_match (compute_similarity feats l))) ∧
    (matchScan [] cfg0 false false [1, 0] foundItem0 [it75]).2 =
      Except.ok [{ item := it75, similarity := 0.75 }] ∧
    (matchScan [] cfg0 false false [1, 0] foundItem0 [it7499]).2 = Except.ok [] := by
  refine ⟨?_, ?_, ?_⟩
  · intro users cfg mailOk smsOk feats fi li l hl
    have hdec : ∀ x ∈ [li], x.features.isSome := by
      intro x hx
      rw [List.mem_singleton] at hx
      subst hx
      simp [hl]
    have hres := matchScan_res users cfg mailOk smsOk feats fi [li] hdec
    have hsim : simTo feats li = compute_similarity feats l := by
      simp [simTo, featuresOf, hl]
    by_cases hacc : (0.75 : ℝ) ≤ compute_similarity feats l
    · have hAL : acceptedLost feats [li] = [li] := by
        simp only [acceptedLost]
        rw [if_pos (by rw [hsim]; exact hacc)]
      rw [hAL] at hres
      simp only [List.map_cons, List.map_nil, hsim] at hres
      constructor
      · rw [hres]
        exact ⟨fun _ => hacc, fun _ => rfl⟩
      · rw [hres]
        constructor
        · intro h
          simp at h
        · intro h
          exact absurd hacc h
    · have hAL : acceptedLost feats [li] = [] := by
        simp only [acceptedLost]
        rw [if_neg (by rw [hsim]; exact hacc)]
      rw [hAL] at hres
      simp only [List.map_nil] at hres
      constructor
      · rw [hres]
        constructor
        · intro h
          simp at h
        · intro h
          exact absurd h hacc
      · rw [hres]
        exact ⟨fun _ => hacc, fun _ => rfl⟩
  · have hdec : ∀ x ∈ [it75], x.features.isSome := by
      intro x hx
      rw [List.mem_singleton] at hx
      subst hx
      rfl
    have hres := matchScan_res [] cfg0 false false [1, 0] foundItem0 [it75] hdec
    have hAL : acceptedLost [1, 0] [it75] = [it75] := by
      simp only [acceptedLost, simTo_it75]
      rw [if_pos (by norm_num)]
    rw [hAL] at hres
    rw [hres]
    simp [simTo_it75, round3_075]
  · have hdec : ∀ x ∈ [it7499], x.features.isSome := by
      intro x hx
      rw [List.mem_singleton] at hx
      subst hx
      rfl
    have hres := matchScan_res [] cfg0 false false [1, 0] foundItem0 [it7499] hdec
    have hAL : acceptedLost [1, 0] [it7499] = [] := by
      simp only [acceptedLost, simTo_it7499]
      rw [if_neg (by norm_num)]
    rw [hAL] at hres
    rw [hres]
    rfl

theorem match_decision_threshold_075_inclusive_witness :
    (((matchScan [] cfg0 false false [1, 0] foundItem0 [it90]).2 =
        Except.ok [MatchRecord.mk it90
          (round3 (compute_similarity [1, 0] [9, Real.sqrt 19]))]) ↔
      is_match (compute_similarity [1, 0] [9, Real.sqrt 19])) ∧
    (((matchScan [] cfg0 false false [1, 0] foundItem0 [it90]).2 = Except.ok []) ↔
      ¬ is_match (compute_similarity [1, 0] [9, Real.sqrt 19])) :=
  match_decision_threshold_075_inclusive.1 [] cfg0 false false [1, 0] foundItem0
    it90 [9, Real.sqrt 19] rfl

/-- C3: notify_user never raises to its caller: for every configuration and
every channel outcome it returns normally, and consequently the result of
the orchestrator's scan does not depend on the delivery outcomes at all - a
delivery failure can neither abort the scan nor change its outcome. -/
theorem notify_never_raises_scan_uninterrupted :
    (∀ (users : List User) (cfg : Config) (mailOk smsOk : Bool)
        (li fi : Item) (sim : ℝ),
      ∃ evs, notify_user users cfg mailOk smsOk li fi sim = Except.ok evs) ∧
    (∀ (users : List User) (cfg : Config) (m1 s1 m2 s2 : Bool)
        (feats : List ℝ) (fi : Item) (lost : List Item),
      (matchScan users cfg m1 s1 feats fi lost).2 =
        (matchScan users cfg m2 s2 feats fi lost).2) := by
  constructor
  · intro users cfg mailOk smsOk li fi sim
    obtain ⟨evs, h, _⟩ := notify_user_ok users cfg mailOk smsOk li fi sim
    exact ⟨evs, h⟩
  · intro users cfg m1 s1 m2 s2 feats fi lost
    exact matchScan_outcome_indep users cfg m1 s1 m2 s2 feats fi lost

/-- C4: each accepted match triggers exactly one Notification Dispatcher
call before the orchestrator returns (the recorded call count equals the
size of the returned match set), an empty lost catalog yields an empty
result and zero calls, and the example catalog scoring [0.9, 0.5, 0.8]
against the query yields exactly the two accepted items, in catalog order,
and exactly 2 dispatcher calls. -/
theorem one_dispatcher_call_per_accepted_match :
    (∀ (users : List User) (cfg : Config) (mailOk smsOk : Bool)
        (feats : List ℝ) (fi : Item) (lost : List Item),
      (∀ li ∈ lost, li.features.isSome) →
      ∃ ms, (matchScan users cfg mailOk smsOk feats fi lost).2 = Except.ok ms ∧
        countNotifyCalls (matchScan users cfg mailOk smsOk feats fi lost).1 =
          ms.length) ∧
    (∀ (users : List User) (cfg : Config) (mailOk smsOk : Bool)
        (feats : List ℝ) (fi : Item),
      matchScan users cfg mailOk smsOk feats fi [] = ([], Except.ok [])) ∧
    ((matchScan [] cfg0 false false [1, 0] foundItem0 [it90, it50, it80]).2 =
        Except.ok [{ item := it90, similarity := 0.9 },
          { item := it80, similarity := 0.8 }] ∧
      countNotifyCalls
        (matchScan [] cfg0 false false [1, 0] foundItem0 [it90, it50, it80]).1 = 2) := by
  have hdec3 : ∀ x ∈ [it90, it50, it80], x.features.isSome := by
    intro x hx
    rcases List.mem_cons.mp hx with rfl | hx
    · rfl
    rcases List.mem_cons.mp hx with rfl | hx
    · rfl
    rw [List.mem_singleton] at hx
    subst hx
    rfl
  refine ⟨?_, ?_, ?_, ?_⟩
  · intro users cfg mailOk smsOk feats fi lost hdec
    refine ⟨_, matchScan_res users cfg mailOk smsOk feats fi lost hdec, ?_⟩
    rw [matchScan_calls users cfg mailOk smsOk feats fi lost hdec, List.length_map]
  · intro users cfg mailOk smsOk feats fi
    rfl
  · rw [matchScan_res [] cfg0 false false [1, 0] foundItem0 _ hdec3,
      acceptedLost_example]
    simp [simTo_it90, simTo_it80, round3_09, round3_08]
  · rw [matchScan_calls [] cfg0 false false [1, 0] foundItem0 _ hdec3,
      acceptedLost_example]
    rfl

theorem one_dispatcher_call_per_accepted_match_witness :
    ∃ ms, (matchScan [u0] cfg0 true true [1, 0] foundItem0 [it90, it50, it80]).2 =
        Except.ok ms ∧
      countNotifyCalls
        (matchScan [u0] cfg0 true true [1, 0] foundItem0 [it90, it50, it80]).1 =
        ms.length :=
  one_dispatcher_call_per_accepted_match.1 [u0] cfg0 true true [1, 0] foundItem0
    [it90, it50, it80] (by
      intro x hx
      rcases List.mem_cons.mp hx with rfl | hx
      · rfl
      rcases List.mem_cons.mp hx with rfl | hx
      · rfl
      rw [List.mem_singleton] at hx
      subst hx
      rfl)

/-- C5: when either input vector has zero norm, compute_similarity returns
exactly 0.0 without raising; in particular the score of a zero vector
against any embedding is 0.0. -/
theorem zero_norm_scores_zero :
    (∀ a b : List ℝ, normList a = 0 ∨ normList b = 0 →
      compute_similarity a b = 0) ∧
    (∀ (n : ℕ) (b : List ℝ), compute_similarity (List.replicate n 0) b = 0) := by
  constructor
  · intro a b h
    exact compute_similarity_zero_norm h
  · intro n b
    exact compute_similarity_zero_norm (Or.inl (normList_replicate_zero n))

theorem zero_norm_scores_zero_witness :
    compute_similarity [(0 : ℝ)] [1] = 0 :=
  zero_norm_scores_zero.1 [0] [1] (Or.inl (by
    rw [normList]
    simp [dotList]))

/-- C6: for equal-length embeddings with nonzero norms, compute_similarity
equals the cosine similarity dot(a,b) / (norm a * norm b), and the value
always lies in the interval [-1, 1]. -/
theorem score_is_cosine_and_bounded (a b : List ℝ) (hlen : a.length = b.length)
    (ha : normList a ≠ 0) (hb : normList b ≠ 0) :
    compute_similarity a b = dotList a b / (normList a * normList b) ∧
    -1 ≤ compute_similarity a b ∧ compute_similarity a b ≤ 1 := by
  have heq := compute_similarity_eval a b hlen ha hb
  have hpos : 0 < normList a * normList b :=
    mul_pos (lt_of_le_of_ne (normList_nonneg a) (Ne.symm ha))
      (lt_of_le_of_ne (normList_nonneg b) (Ne.symm hb))
  have habs : |compute_similarity a b| ≤ 1 := by
    rw [heq, abs_div, abs_of_pos hpos, div_le_one hpos]
    exact abs_dotList_le a b
  exact ⟨heq, (abs_le.mp habs).1, (abs_le.mp habs).2⟩

theorem score_is_cosine_and_bounded_witness :
    compute_similarity [(1 : ℝ)] [1] =
      dotList [(1 : ℝ)] [1] / (normList [(1 : ℝ)] * normList [(1 : ℝ)]) ∧
    -1 ≤ compute_similarity [(1 : ℝ)] [1] ∧ compute_similarity [(1 : ℝ)] [1] ≤ 1 :=
  score_is_cosine_and_bounded [1] [1] rfl
    (by rw [normList]; norm_num [dotList])
    (by rw [normList]; norm_num [dotList])

/-- C7 counterexample: a stored lost item whose embedding text does not
decode is not skipped - the scan raises and aborts, and the later item of
the catalog (which would match) is never examined. -/
theorem corrupt_embedding_aborts_scan :
    (matchScan [] cfg0 false false [1, 0] foundItem0 [corruptItem, it90]).2 =
      Except.error () := rfl

/-- C7 (amended): a stored lost item whose embedding decodes but violates
the length-equality precondition is scored 0, hence excluded from the
matches, and does not abort the scan over the remaining catalog; an
embedding that fails to decode, by contrast, aborts the whole scan. -/
theorem mismatched_length_excluded_scan_continues
    (users : List User) (cfg : Config) (mailOk smsOk : Bool)
    (feats : List ℝ) (fi : Item) (lost : List Item)
    (hdec : ∀ li ∈ lost, li.features.isSome) :
    ∃ ms, (matchScan users cfg mailOk smsOk feats fi lost).2 = Except.ok ms ∧
      ∀ li ∈ lost, ∀ l, li.features = some l → l.length ≠ feats.length →
        li ∉ ms.map MatchRecord.item := by
  refine ⟨_, matchScan_res users cfg mailOk smsOk feats fi lost hdec, ?_⟩
  intro li hli l hl hlen hmem
  rw [List.map_map] at hmem
  have hid : (MatchRecord.item ∘ fun li =>
      ({ item := li, similarity := round3 (simTo feats li) } : MatchRecord)) = id := rfl
  rw [hid, List.map_id] at hmem
  have hacc := (mem_acceptedLost hmem).1
  have hzero : simTo feats li = 0 := by
    simp only [simTo, featuresOf, hl, Option.getD_some]
    unfold compute_similarity
    rw [if_neg (fun h => hlen h.symm)]
  rw [hzero] at hacc
  norm_num at hacc

theorem mismatched_length_excluded_scan_continues_witness :
    ∃ ms, (matchScan [] cfg0 false false [1, 0] foundItem0 [mismatchItem]).2 =
        Except.ok ms ∧
      ∀ li ∈ [mismatchItem], ∀ l, li.features = some l →
        l.length ≠ ([1, 0] : List ℝ).length → li ∉ ms.map MatchRecord.item :=
  mismatched_length_excluded_scan_continues [] cfg0 false false [1, 0] foundItem0
    [mismatchItem] (by
      intro x hx
      rw [List.mem_singleton] at hx
      subst hx
      rfl)

/-- C8: when the lost item's owner resolves, notify_user persists a
Notification whose status is sent as its first effect, before any delivery
attempt, and returns normally for every combination of channel outcomes -
in particular when the mail channel fails while SMS succeeds or not. -/
theorem notification_persisted_sent_before_delivery
    (users : List User) (cfg : Config) (mailOk smsOk : Bool)
    (li fi : Item) (sim : ℝ) (u : User)
    (hu : users.find? (fun x => x.id == li.user_id) = some u) :
    ∃ n rest, notify_user users cfg mailOk smsOk li fi sim =
        Except.ok (Event.notifPersisted n :: rest) ∧
      n.status = "sent" ∧ n.receiver_id = u.id ∧
      ∀ e ∈ rest, isDeliveryAttempt e = true := by
  unfold notify_user
  rw [hu]
  refine ⟨_, _, rfl, rfl, rfl, ?_⟩
  intro e he
  rw [List.mem_append] at he
  rcases he with he | he
  · by_cases hc : (u.email != "" && strOptTruthy cfg.mail_username) = true
    · rw [if_pos hc] at he
      cases mailOk <;> simp [transportSend] at he <;> subst he <;> rfl
    · rw [if_neg hc] at he
      cases he
  · by_cases hc : (cfg.use_twilio && strOptTruthy u.phone) = true
    · rw [if_pos hc] at he
      cases smsOk <;> simp [transportSend] at he <;> subst he <;> rfl
    · rw [if_neg hc] at he
      cases he

theorem notification_persisted_sent_before_delivery_witness :
    ∃ n rest, notify_user [u0] cfg0 false true it90 foundItem0 0.9 =
        Except.ok (Event.notifPersisted n :: rest) ∧
      n.status = "sent" ∧ n.receiver_id = u0.id ∧
      ∀ e ∈ rest, isDeliveryAttempt e = true :=
  notification_persisted_sent_before_delivery [u0] cfg0 false true it90 foundItem0
    0.9 u0 rfl

/-- C9: every match returned by a found-item submission is an item of kind
lost; the newly submitted found item (kind found) is persisted to the store
before the scan begins, yet it is never a match candidate, so a found item
never matches itself or another found item. -/
theorem returned_matches_are_lost_items
    (users : List User) (cfg : Config) (mailOk smsOk : Bool)
    (store : List Item) (req : SubmitRequest) (f : UploadedFile)
    (himg : req.image = some f)
    (hdec : ∀ li ∈ store, li.type = "lost" → li.features.isSome) :
    ∃ ms evs,
      foundPost users cfg mailOk smsOk store req =
        (store ++ [mkFoundItem store req f],
          [Event.imageSaved f.filename, Event.featuresExtracted,
            Event.itemPersisted (mkFoundItem store req f)] ++ evs,
          Except.ok (Response.resultsPage ms f.filename)) ∧
      (mkFoundItem store req f).type = "found" ∧
      (∀ m ∈ ms, m.item.type = "lost") ∧
      mkFoundItem store req f ∉ ms.map MatchRecord.item := by
  rw [foundPost_ok users cfg mailOk smsOk store req f himg hdec]
  have hlost : ∀ m ∈ (acceptedLost f.features
      (store.filter fun li => li.type == "lost")).map
        (fun li => MatchRecord.mk li (round3 (simTo f.features li))),
      m.item.type = "lost" := by
    intro m hm
    rw [List.mem_map] at hm
    obtain ⟨li, hli, rfl⟩ := hm
    have hmem := (mem_acceptedLost hli).2
    rw [List.mem_filter] at hmem
    simpa using hmem.2
  refine ⟨_, _, rfl, rfl, hlost, ?_⟩
  intro hmem
  rw [List.mem_map] at hmem
  obtain ⟨m, hm, heq⟩ := hmem
  have hthis := hlost m hm
  rw [heq] at hthis
  have hfound : (mkFoundItem store req f).type = "found" := rfl
  rw [hfound] at hthis
  exact absurd hthis (by decide)

theorem returned_matches_are_lost_items_witness :
    ∃ ms evs,
      foundPost [] cfg0 false false [] reqImg =
        ([] ++ [mkFoundItem [] reqImg file0],
          [Event.imageSaved file0.filename, Event.featuresExtracted,
            Event.itemPersisted (mkFoundItem [] reqImg file0)] ++ evs,
          Except.ok (Response.resultsPage ms file0.filename)) ∧
      (mkFoundItem [] reqImg file0).type = "found" ∧
      (∀ m ∈ ms, m.item.type = "lost") ∧
      mkFoundItem [] reqImg file0 ∉ ms.map MatchRecord.item :=
  returned_matches_are_lost_items [] cfg0 false false [] reqImg file0 rfl
    (fun li h => absurd h (List.not_mem_nil li))

/-- C10: a lost or found submission without an image file is rejected
before anything else happens: no item is persisted, no feature extraction
runs, no scan or notification occurs, and the item store is unchanged. -/
theorem no_image_rejects_submission_store_unchanged
    (users : List User) (cfg : Config) (mailOk smsOk : Bool)
    (store : List Item) (req : SubmitRequest) (himg : req.image = none) :
    foundPost users cfg mailOk smsOk store req =
      (store, [], Except.ok Response.redirectFound) ∧
    lostPost store req = (store, [], Response.redirectLost) := by
  constructor
  · simp [foundPost, himg]
  · simp [lostPost, himg]

theorem no_image_rejects_submission_store_unchanged_witness :
    foundPost [] cfg0 false false [it90] req0 =
      ([it90], [], Except.ok Response.redirectFound) ∧
    lostPost [it90] req0 = ([it90], [], Response.redirectLost) :=
  no_image_rejects_submission_store_unchanged [] cfg0 false false [it90] req0 rfl

end
